/-
Verification of the dendrite device-list synchronization engine spec and the
pusher HTTP handlers, against a shallow embedding of the code.

The pusher handlers (GetPushersByLocalpart, SetPusherByLocalpart) and the
keyserver constructor (NewInternalAPI) are embedded directly from the Go
source.  The device-list updater core (diff, resync, queue, publisher) is not
part of the visible source: only its constructor call site is.  Those parts
are modelled from the spec, as marked on each definition.
-/
import Mathlib

namespace Dendrite

/-! ## Data model of the device-list synchronization engine -/

/-- Modelled from the spec: DeviceKeys of §3 (the device-list updater source
is not in the repository snapshot; only its constructor call in
NewInternalAPI is).  DeviceID plus the key material fields; a change in any
field other than DeviceID is a key-material change. -/
structure DeviceKeys where
  deviceID : String
  algorithms : List String
  keys : List (String × String)
  signatures : List (String × String)
deriving DecidableEq

/-- Modelled from the spec: DeviceListState of §3 — per remote user: UserID,
ServerName, StreamID, IsStale, Devices, plus the timestamp updated on
resync. -/
structure DeviceListState where
  userID : String
  serverName : String
  streamID : Nat
  isStale : Bool
  devices : List DeviceKeys
  updatedAt : Nat
deriving DecidableEq

/-- Modelled from the spec: the ChangeType enum of KeyChangeRecord (§3). -/
inductive ChangeType where
  | added
  | updated
  | removed
deriving DecidableEq

/-- Modelled from the spec: one entry of the diff computed by ResyncUser,
before the publisher assigns a global stream position. -/
structure KeyChange where
  deviceID : String
  changeType : ChangeType
deriving DecidableEq

/-! ## Diff computation (Synchronization Engine §4.2 step 3) -/

/-- Whether a device list contains a device with the given DeviceID. -/
def hasDevice (l : List DeviceKeys) (id : String) : Bool :=
  l.any (fun d => d.deviceID == id)

/-- Look up the device with the given DeviceID. -/
def findDevice (l : List DeviceKeys) (id : String) : Option DeviceKeys :=
  l.find? (fun d => d.deviceID == id)

/-- Modelled from the spec: key material changed — any field other than the
DeviceID differs (§3: a change in any field produces a new logical
device-key version). -/
def keysChanged (a b : DeviceKeys) : Bool :=
  !(a.algorithms == b.algorithms && a.keys == b.keys && a.signatures == b.signatures)

/-- DeviceIDs of stored devices absent from the remote list, ordered by
DeviceID. -/
def removedIDs (stored remote : List DeviceKeys) : List String :=
  List.insertionSort (· ≤ ·)
    ((stored.filter (fun d => !(hasDevice remote d.deviceID))).map (fun d => d.deviceID))

/-- DeviceIDs present in both lists whose key material differs, ordered by
DeviceID. -/
def updatedIDs (stored remote : List DeviceKeys) : List String :=
  List.insertionSort (· ≤ ·)
    ((stored.filter (fun d =>
      match findDevice remote d.deviceID with
      | some r => keysChanged d r
      | none => false)).map (fun d => d.deviceID))

/-- DeviceIDs of remote devices absent from the stored list, ordered by
DeviceID. -/
def addedIDs (stored remote : List DeviceKeys) : List String :=
  List.insertionSort (· ≤ ·)
    ((remote.filter (fun d => !(hasDevice stored d.deviceID))).map (fun d => d.deviceID))

/-- Modelled from the spec: the diff of §4.2 steps 3–4 — removals first, then
updates, then additions, each group ordered by DeviceID. -/
def diffDeviceLists (stored remote : List DeviceKeys) : List KeyChange :=
  (removedIDs stored remote).map (fun id => ⟨id, ChangeType.removed⟩)
    ++ (updatedIDs stored remote).map (fun id => ⟨id, ChangeType.updated⟩)
    ++ (addedIDs stored remote).map (fun id => ⟨id, ChangeType.added⟩)

/-! ## Resync (Synchronization Engine §4.2, error taxonomy §7) -/

/-- Modelled from the spec: outcome of the remote fetch (§4.2 step 2, §7) —
success, transient failure (network/timeout), or permanent failure (remote
rejects the request / malformed response). -/
inductive FetchResult where
  | ok (devices : List DeviceKeys)
  | transient
  | permanent
deriving DecidableEq

/-- Modelled from the spec: result of one ResyncUser run — the new stored
state, the published key changes, whether the task is re-enqueued for retry,
and whether a CommitDeviceListUpdate transaction ran (advancing StreamID). -/
structure ResyncResult where
  state : DeviceListState
  published : List KeyChange
  reenqueue : Bool
  committed : Bool

/-- Modelled from the spec: ResyncUser (§4.2) together with the §4.1/§7
failure handling.  On success with a non-empty diff the new device list is
committed with a strictly larger StreamID and the diff is published; with an
empty diff only IsStale and the timestamp change.  A transient failure leaves
the record stale and re-enqueues; a permanent failure commits an empty device
list, marks the record non-stale and does not retry. -/
def resyncUser (s : DeviceListState) (now : Nat) (fetch : FetchResult) : ResyncResult :=
  match fetch with
  | FetchResult.transient =>
      { state := s, published := [], reenqueue := true, committed := false }
  | FetchResult.permanent =>
      { state := { s with devices := [], isStale := false,
                          streamID := s.streamID + 1, updatedAt := now },
        published := [], reenqueue := false, committed := true }
  | FetchResult.ok remote =>
      let d := diffDeviceLists s.devices remote
      if d.isEmpty then
        { state := { s with isStale := false, updatedAt := now },
          published := [], reenqueue := false, committed := false }
      else
        { state := { s with devices := remote, isStale := false,
                            streamID := s.streamID + 1, updatedAt := now },
          published := d, reenqueue := false, committed := true }

/-- The successive states and commit flags produced by running a sequence of
resync operations on one user. -/
def resyncTrace (s : DeviceListState) : List (Nat × FetchResult) → List (DeviceListState × Bool)
  | [] => []
  | (now, f) :: rest =>
      let r := resyncUser s now f
      (r.state, r.committed) :: resyncTrace r.state rest

/-- StreamIDs of the states committed by CommitDeviceListUpdate along a run. -/
def committedStreamIDs (s : DeviceListState) (fs : List (Nat × FetchResult)) : List Nat :=
  ((resyncTrace s fs).filter (fun p => p.2)).map (fun p => p.1.streamID)

/-- StreamIDs of every successive state along a run, committed or not. -/
def allStreamIDs (s : DeviceListState) (fs : List (Nat × FetchResult)) : List Nat :=
  (resyncTrace s fs).map (fun p => p.1.streamID)

/-! ## Staleness queue (§4.1) -/

/-- Modelled from the spec: state of the staleness queue and worker pool
(§4.1) — the queued tasks in order, the users whose tasks are in flight, and
the users signalled again while their task is in flight (the per-user
in-flight marker: such a signal coalesces into one pending follow-up task
that is re-queued when the in-flight task completes). -/
structure QueueState where
  queued : List String
  running : List String
  pending : List String
deriving DecidableEq

/-- Modelled from the spec: Enqueue (§4.1) — a signal for a user whose task
is already queued or pending coalesces into that task; a signal for a user
in flight records one pending follow-up; otherwise a task is appended. -/
def enqueue (u : String) (q : QueueState) : QueueState :=
  if u ∈ q.queued then q
  else if u ∈ q.running then
    if u ∈ q.pending then q else { q with pending := q.pending ++ [u] }
  else { q with queued := q.queued ++ [u] }

/-- Modelled from the spec: completion of an in-flight task (§4.1) — the user
leaves the in-flight set; a pending follow-up signal becomes exactly one new
queued task. -/
def complete (u : String) (q : QueueState) : QueueState :=
  { queued := if u ∈ q.pending then q.queued ++ [u] else q.queued,
    running := q.running.erase u,
    pending := q.pending.erase u }

/-- Outstanding future resyncs for a user: queued tasks plus pending
follow-up signals. -/
def outstandingTasks (u : String) (q : QueueState) : Nat :=
  q.queued.count u + q.pending.count u

/-! ## Change publisher (§4.3) -/

/-- Modelled from the spec: KeyChangeRecord of §3 — UserID, DeviceID, global
ChangeStreamPosition, ChangeType. -/
structure KeyChangeRecord where
  userID : String
  deviceID : String
  changeStreamPosition : Nat
  changeType : ChangeType
deriving DecidableEq

/-- Modelled from the spec: state of the Change Publisher (§4.3) — the next
free global stream position and the durable append-only stream. -/
structure PublisherState where
  nextPos : Nat
  stream : List KeyChangeRecord

/-- Assign consecutive global stream positions, starting at the given one, to
a batch of key changes for one user. -/
def assignPositions (u : String) (start : Nat) : List KeyChange → List KeyChangeRecord
  | [] => []
  | c :: cs => ⟨u, c.deviceID, start, c.changeType⟩ :: assignPositions u (start + 1) cs

/-- Modelled from the spec: Publish (§4.3) — assigns strictly increasing
global ChangeStreamPosition values and appends to the durable stream. -/
def publish (p : PublisherState) (u : String) (recs : List KeyChange) : PublisherState :=
  { nextPos := p.nextPos + recs.length,
    stream := p.stream ++ assignPositions u p.nextPos recs }

/-- Run a sequence of Publish calls (possibly for different users) from an
initial publisher state. -/
def runPublishes (p : PublisherState) : List (String × List KeyChange) → PublisherState
  | [] => p
  | (u, recs) :: rest => runPublishes (publish p u recs) rest

/-- The empty publisher: position counter at zero, empty stream. -/
def initialPublisher : PublisherState := { nextPos := 0, stream := [] }

/-! ## Keyserver constructor (embedded from NewInternalAPI in the source) -/

/-- Database options of the keyserver config, as used by NewInternalAPI. -/
structure DatabaseOptions where
  connectionString : String
deriving DecidableEq

/-- The global matrix part of the config used by NewInternalAPI: the JetStream
settings and the server name. -/
structure MatrixConfig where
  serverName : String
  jetStream : String
deriving DecidableEq

/-- The config.KeyServer value passed to NewInternalAPI. -/
structure KeyServerConfig where
  matrix : MatrixConfig
  database : DatabaseOptions
deriving DecidableEq

/-- The device list updater as constructed by NewDeviceListUpdater: we track
the worker count it was handed. -/
structure DeviceListUpdater where
  workerCount : Nat
deriving DecidableEq

/-- NewDeviceListUpdater, keeping the worker-count argument. -/
def NewDeviceListUpdater (workers : Nat) : DeviceListUpdater :=
  { workerCount := workers }

/-- The KeyInternalAPI value built by NewInternalAPI, with a count of how many
times updater.Start was invoked during construction. -/
structure KeyInternalAPI where
  thisServer : String
  updater : DeviceListUpdater
  updaterStartCalls : Nat
deriving DecidableEq

/-- NewInternalAPI from the source: opens the database (panicking — here:
returning none — if that fails), builds the device list updater with the
literal worker count 8, starts it once in a background goroutine, and
returns the API. -/
def NewInternalAPI (cfg : KeyServerConfig) (dbOpenOK : Bool) : Option KeyInternalAPI :=
  if dbOpenOK then
    let updater := NewDeviceListUpdater 8
    some { thisServer := cfg.matrix.serverName,
           updater := updater,
           updaterStartCalls := 1 }
  else none

/-! ## Pusher HTTP handlers (embedded from the routing source) -/

/-- A stored pusher as returned by QueryPushers; the fields the handlers
read. -/
structure Pusher where
  userID : String
  pushKey : String
  kind : String
  appID : String
  appDisplayName : String
  deviceDisplayName : String
  profileTag : String
  language : String
  dataURL : String
  dataFormat : String
deriving DecidableEq

/-- The pusherJSON wire structure of the routing source. -/
structure PusherJSON where
  pushKey : String
  kind : String
  appID : String
  appDisplayName : String
  deviceDisplayName : String
  profileTag : String
  language : String
  dataURL : String
  dataFormat : String
deriving DecidableEq

/-- The JSON bodies the two handlers can return.  In the pushers body the
list is wrapped in Option to model Go slice serialization: none is a nil
slice (JSON null), some a concrete JSON array. -/
inductive JSONBody where
  | pushersBody (pushers : Option (List PusherJSON))
  | errorBody (errcode : String) (message : String)
  | emptyObject
deriving DecidableEq

/-- util.JSONResponse: an HTTP status code and a JSON body. -/
structure JSONResponse where
  code : Nat
  json : JSONBody
deriving DecidableEq

/-- jsonerror.InternalServerError as returned by the handlers. -/
def internalServerError : JSONResponse :=
  { code := 500, json := JSONBody.errorBody "M_UNKNOWN" "Internal Server Error" }

/-- The pusherJSON built from a stored pusher in GetPushersByLocalpart. -/
def pusherToJSON (p : Pusher) : PusherJSON :=
  { pushKey := p.pushKey, kind := p.kind, appID := p.appID,
    appDisplayName := p.appDisplayName, deviceDisplayName := p.deviceDisplayName,
    profileTag := p.profileTag, language := p.language,
    dataURL := p.dataURL, dataFormat := p.dataFormat }

/-- Go append on an Option-wrapped slice: appending to a nil slice yields a
fresh one-element slice, never null. -/
def goAppend (acc : Option (List PusherJSON)) (x : PusherJSON) : Option (List PusherJSON) :=
  match acc with
  | none => some [x]
  | some l => some (l ++ [x])

/-- GetPushersByLocalpart from the routing source: query the pushers for the
device's user; on error return an internal server error, otherwise start
from an empty (non-nil) slice, append one pusherJSON per stored pusher in
order, and return 200 with the pushers body. -/
def GetPushersByLocalpart (queryPushers : Except Unit (List Pusher)) : JSONResponse :=
  match queryPushers with
  | Except.error _ => internalServerError
  | Except.ok pushers =>
      let res : Option (List PusherJSON) := some []
      let res := pushers.foldl (fun acc p => goAppend acc (pusherToJSON p)) res
      { code := 200, json := JSONBody.pushersBody res }

/-- The internal userapi calls SetPusherByLocalpart can make after the
initial QueryPushers. -/
inductive APICall where
  | queryPushers
  | pusherCreation
  | pusherDeletion
  | pusherUpdate
deriving DecidableEq

/-- The linear scan of SetPusherByLocalpart for the first stored pusher whose
PushKey equals the request body PushKey. -/
def findTargetPusher (pushers : List Pusher) (key : String) : Option Pusher :=
  pushers.find? (fun p => p.pushKey == key)

/-- SetPusherByLocalpart from the routing source, over a parsed request body.
The fallible userapi calls are passed in as results; the returned list
records which userapi calls the handler made.  The source re-checks
targetPusher for nil inside the empty-kind branch and returns 404 there;
that check is kept (on the devices of the some branch) to show the branch is
dead. -/
def SetPusherByLocalpart (body : PusherJSON)
    (queryPushers : Except Unit (List Pusher))
    (creationRes deletionRes updateRes : Except Unit Unit) :
    JSONResponse × List APICall :=
  match queryPushers with
  | Except.error _ => (internalServerError, [APICall.queryPushers])
  | Except.ok pushers =>
      let targetPusher := findTargetPusher pushers body.pushKey
      match targetPusher with
      | none =>
          match creationRes with
          | Except.error _ =>
              (internalServerError, [APICall.queryPushers, APICall.pusherCreation])
          | Except.ok _ =>
              ({ code := 200, json := JSONBody.emptyObject },
                [APICall.queryPushers, APICall.pusherCreation])
      | some target =>
          if body.kind == "" then
            if (some target).isNone then
              ({ code := 404, json := JSONBody.errorBody "M_NOT_FOUND" "Unknown pusher" },
                [APICall.queryPushers])
            else
              match deletionRes with
              | Except.error _ =>
                  (internalServerError, [APICall.queryPushers, APICall.pusherDeletion])
              | Except.ok _ =>
                  ({ code := 200, json := JSONBody.emptyObject },
                    [APICall.queryPushers, APICall.pusherDeletion])
          else
            match updateRes with
            | Except.error _ =>
                (internalServerError, [APICall.queryPushers, APICall.pusherUpdate])
            | Except.ok _ =>
                ({ code := 200, json := JSONBody.emptyObject },
                  [APICall.queryPushers, APICall.pusherUpdate])

/-! ## Concrete example inputs used by the witnesses -/

/-- A concrete device named A. -/
def devA : DeviceKeys :=
  { deviceID := "A", algorithms := ["alg1"], keys := [("k1", "key-a")], signatures := [] }

/-- A concrete device named B. -/
def devB : DeviceKeys :=
  { deviceID := "B", algorithms := ["alg1"], keys := [("k1", "key-b")], signatures := [] }

/-- Device B after a key rotation: same DeviceID, different key material. -/
def devB2 : DeviceKeys :=
  { deviceID := "B", algorithms := ["alg1"], keys := [("k1", "key-b-rotated")], signatures := [] }

/-- A concrete device named C. -/
def devC : DeviceKeys :=
  { deviceID := "C", algorithms := ["alg1"], keys := [("k1", "key-c")], signatures := [] }

/-- A concrete device-list state for the witnesses. -/
def exampleState : DeviceListState :=
  { userID := "@bob:remote.org", serverName := "remote.org", streamID := 5,
    isStale := true, devices := [devA], updatedAt := 100 }

/-- A concrete stored pusher for the witnesses. -/
def examplePusher : Pusher :=
  { userID := "@alice:example.org", pushKey := "key1", kind := "http",
    appID := "app", appDisplayName := "App", deviceDisplayName := "Phone",
    profileTag := "tag", language := "en", dataURL := "https://push.example.org",
    dataFormat := "event_id_only" }

/-- A concrete request body for the witnesses, with a PushKey matching no
stored pusher and an empty Kind. -/
def exampleBody : PusherJSON :=
  { pushKey := "key2", kind := "", appID := "app", appDisplayName := "App",
    deviceDisplayName := "Phone", profileTag := "tag", language := "en",
    dataURL := "https://push.example.org", dataFormat := "event_id_only" }

/-- A concrete keyserver config for the witnesses. -/
def exampleConfig : KeyServerConfig :=
  { matrix := { serverName := "example.org", jetStream := "nats://localhost" },
    database := { connectionString := "postgres://keyserver" } }

/-!
## Theorems
-/

/-- C6: a resync task whose remote fetch fails with a permanent error commits
the user's record with an empty device list and IsStale=false, and the task
is not re-enqueued or retried. -/
theorem resync_permanent_resolves (s : DeviceListState) (now : Nat) :
    (resyncUser s now FetchResult.permanent).state.devices = []
    ∧ (resyncUser s now FetchResult.permanent).state.isStale = false
    ∧ (resyncUser s now FetchResult.permanent).reenqueue = false :=
  ⟨rfl, rfl, rfl⟩

/-- C8: NewInternalAPI builds the device list updater with the fixed,
statically determined worker count 8 — the same for every configuration —
and invokes updater.Start exactly once. -/
theorem newInternalAPI_fixed_workers (cfg cfg2 : KeyServerConfig) (db db2 : Bool)
    (api api2 : KeyInternalAPI)
    (h : NewInternalAPI cfg db = some api)
    (h2 : NewInternalAPI cfg2 db2 = some api2) :
    api.updater.workerCount = 8 ∧ api.updaterStartCalls = 1
    ∧ api2.updater.workerCount = api.updater.workerCount := by
  cases db with
  | false => simp [NewInternalAPI] at h
  | true =>
    cases db2 with
    | false => simp [NewInternalAPI] at h2
    | true =>
      have ha : api = ⟨cfg.matrix.serverName, NewDeviceListUpdater 8, 1⟩ := by
        have hs := h.symm
        simpa [NewInternalAPI] using hs
      have hb : api2 = ⟨cfg2.matrix.serverName, NewDeviceListUpdater 8, 1⟩ := by
        have hs := h2.symm
        simpa [NewInternalAPI] using hs
      subst ha
      subst hb
      exact ⟨rfl, rfl, rfl⟩

/-- Witness for C8 at a concrete configuration. -/
theorem newInternalAPI_fixed_workers_witness :
    NewInternalAPI exampleConfig true
      = some ⟨"example.org", NewDeviceListUpdater 8, 1⟩
    ∧ (⟨"example.org", NewDeviceListUpdater 8, 1⟩ : KeyInternalAPI).updater.workerCount = 8 := by
  refine ⟨rfl, ?_⟩
  have h := newInternalAPI_fixed_workers exampleConfig exampleConfig true true
    ⟨"example.org", NewDeviceListUpdater 8, 1⟩ ⟨"example.org", NewDeviceListUpdater 8, 1⟩
    rfl rfl
  exact h.1

/-- Folding Go append over a non-nil slice appends the mapped pushers in
order. -/
theorem foldl_goAppend (ps : List Pusher) (acc : List PusherJSON) :
    ps.foldl (fun a p => goAppend a (pusherToJSON p)) (some acc)
      = some (acc ++ ps.map pusherToJSON) := by
  induction ps generalizing acc with
  | nil => simp
  | cons p t ih =>
    rw [List.foldl_cons]
    have hg : goAppend (some acc) (pusherToJSON p) = some (acc ++ [pusherToJSON p]) := rfl
    rw [hg, ih]
    simp

/-- C9: GetPushersByLocalpart returns an internal server error exactly when
QueryPushers fails; otherwise it returns 200 with one pusher entry per
stored pusher, in order, and for zero pushers the body holds the empty
array, never null. -/
theorem getPushers_spec (qp : Except Unit (List Pusher)) :
    (GetPushersByLocalpart qp = internalServerError ↔ ∃ e, qp = Except.error e)
    ∧ (∀ ps, qp = Except.ok ps →
        GetPushersByLocalpart qp
          = ⟨200, JSONBody.pushersBody (some (ps.map pusherToJSON))⟩)
    ∧ GetPushersByLocalpart (Except.ok ([] : List Pusher))
        = ⟨200, JSONBody.pushersBody (some [])⟩ := by
  refine ⟨?_, ?_, ?_⟩
  · cases qp with
    | error e => exact ⟨fun _ => ⟨e, rfl⟩, fun _ => rfl⟩
    | ok ps =>
      constructor
      · intro hcontra
        have hc := congrArg JSONResponse.code hcontra
        simp [GetPushersByLocalpart, internalServerError] at hc
      · rintro ⟨e, he⟩
        cases he
  · intro ps hqp
    subst hqp
    simp only [GetPushersByLocalpart]
    rw [foldl_goAppend]
    simp
  · rfl

/-- Witness for C9 at a concrete pusher list. -/
theorem getPushers_spec_witness :
    GetPushersByLocalpart (Except.ok [examplePusher])
      = ⟨200, JSONBody.pushersBody (some [pusherToJSON examplePusher])⟩ := by
  have h := (getPushers_spec (Except.ok [examplePusher])).2.1 [examplePusher] rfl
  simpa using h

/-- C10: SetPusherByLocalpart never returns HTTP 404: when no stored pusher
matches the body's PushKey the handler calls PerformPusherCreation, even for
an empty Kind, so the Unknown-pusher branch is unreachable. -/
theorem setPusher_no_404 (body : PusherJSON) (qp : Except Unit (List Pusher))
    (creationRes deletionRes updateRes : Except Unit Unit) :
    (SetPusherByLocalpart body qp creationRes deletionRes updateRes).1.code ≠ 404
    ∧ (∀ pushers, qp = Except.ok pushers →
        (∀ p ∈ pushers, p.pushKey ≠ body.pushKey) →
        APICall.pusherCreation
          ∈ (SetPusherByLocalpart body qp creationRes deletionRes updateRes).2) := by
  constructor
  · cases qp with
    | error e => simp [SetPusherByLocalpart, internalServerError]
    | ok pushers =>
      cases hf : findTargetPusher pushers body.pushKey with
      | none =>
        cases creationRes with
        | error e => simp [SetPusherByLocalpart, hf, internalServerError]
        | ok v => simp [SetPusherByLocalpart, hf]
      | some target =>
        cases hk : body.kind == "" with
        | true =>
          cases deletionRes with
          | error e => simp [SetPusherByLocalpart, hf, hk, internalServerError]
          | ok v => simp [SetPusherByLocalpart, hf, hk]
        | false =>
          cases updateRes with
          | error e => simp [SetPusherByLocalpart, hf, hk, internalServerError]
          | ok v => simp [SetPusherByLocalpart, hf, hk]
  · intro pushers hqp hnone
    subst hqp
    have hf : findTargetPusher pushers body.pushKey = none := by
      simp only [findTargetPusher, List.find?_eq_none]
      intro p hp
      simpa using hnone p hp
    cases creationRes with
    | error e => simp [SetPusherByLocalpart, hf]
    | ok v => simp [SetPusherByLocalpart, hf]

/-- Witness for C10 at a concrete body whose PushKey matches no stored pusher
and whose Kind is empty. -/
theorem setPusher_no_404_witness :
    (SetPusherByLocalpart exampleBody (Except.ok [examplePusher])
        (Except.ok ()) (Except.ok ()) (Except.ok ())).1.code ≠ 404
    ∧ APICall.pusherCreation
        ∈ (SetPusherByLocalpart exampleBody (Except.ok [examplePusher])
            (Except.ok ()) (Except.ok ()) (Except.ok ())).2 := by
  have h := setPusher_no_404 exampleBody (Except.ok [examplePusher])
    (Except.ok ()) (Except.ok ()) (Except.ok ())
  exact ⟨h.1, h.2 [examplePusher] rfl (by decide)⟩

/-- One resync step advances StreamID by one when it commits and leaves it
unchanged otherwise. -/
theorem resync_streamID_step (s : DeviceListState) (now : Nat) (f : FetchResult) :
    (resyncUser s now f).state.streamID
      = if (resyncUser s now f).committed then s.streamID + 1 else s.streamID := by
  cases f with
  | transient => rfl
  | permanent => rfl
  | ok remote =>
    simp only [resyncUser]
    by_cases h : (diffDeviceLists s.devices remote).isEmpty <;> simp [h]

/-- C1: along every sequence of resync operations on one user, the StreamIDs
of the committed states are strictly increasing (each strictly above the
user's starting StreamID), and the StreamID of the stored record never
decreases at any step. -/
theorem streamID_strictly_increasing (s : DeviceListState)
    (fs : List (Nat × FetchResult)) :
    List.Chain' (· < ·) (s.streamID :: committedStreamIDs s fs)
    ∧ List.Chain' (· ≤ ·) (s.streamID :: allStreamIDs s fs) := by
  induction fs generalizing s with
  | nil => exact ⟨List.chain'_singleton _, List.chain'_singleton _⟩
  | cons step rest ih =>
    obtain ⟨now, f⟩ := step
    have hstep := resync_streamID_step s now f
    have hc : committedStreamIDs s ((now, f) :: rest)
        = if (resyncUser s now f).committed then
            (resyncUser s now f).state.streamID
              :: committedStreamIDs (resyncUser s now f).state rest
          else committedStreamIDs (resyncUser s now f).state rest := by
      by_cases h : (resyncUser s now f).committed
        <;> simp [committedStreamIDs, resyncTrace, h]
    have ha : allStreamIDs s ((now, f) :: rest)
        = (resyncUser s now f).state.streamID
            :: allStreamIDs (resyncUser s now f).state rest := by
      simp [allStreamIDs, resyncTrace]
    obtain ⟨ihc, iha⟩ := ih (resyncUser s now f).state
    by_cases h : (resyncUser s now f).committed
    · rw [if_pos h] at hstep
      constructor
      · rw [hc, if_pos h]
        exact List.chain'_cons.mpr ⟨by omega, ihc⟩
      · rw [ha]
        exact List.chain'_cons.mpr ⟨by omega, iha⟩
    · rw [if_neg h] at hstep
      constructor
      · rw [hc, if_neg h, ← hstep]
        exact ihc
      · rw [ha]
        exact List.chain'_cons.mpr ⟨by omega, iha⟩

/-- Every record a batch assignment produces has its position in the window
starting at the handed-out position. -/
theorem assignPositions_bounds (u : String) (cs : List KeyChange) :
    ∀ start, ∀ r ∈ assignPositions u start cs,
      start ≤ r.changeStreamPosition ∧ r.changeStreamPosition < start + cs.length := by
  induction cs with
  | nil => intro start r hr; cases hr
  | cons c t ih =>
    intro start r hr
    rcases List.mem_cons.mp hr with h | h
    · subst h
      simp
    · have hb := ih (start + 1) r h
      constructor <;> [omega; skip]
      have := hb.2
      simp only [List.length_cons]
      omega

/-- The records of one batch carry strictly increasing positions. -/
theorem assignPositions_pairwise (u : String) (cs : List KeyChange) :
    ∀ start, List.Pairwise
      (fun a b => a.changeStreamPosition < b.changeStreamPosition)
      (assignPositions u start cs) := by
  induction cs with
  | nil => intro start; exact List.Pairwise.nil
  | cons c t ih =>
    intro start
    refine List.pairwise_cons.mpr ⟨?_, ih (start + 1)⟩
    intro r hr
    have := (assignPositions_bounds u t (start + 1) r hr).1
    simp only []
    omega

/-- The publisher invariant: the stream is strictly ordered by position and
every position is below the next free one. -/
def streamOrdered (p : PublisherState) : Prop :=
  List.Pairwise (fun a b => a.changeStreamPosition < b.changeStreamPosition) p.stream
  ∧ ∀ r ∈ p.stream, r.changeStreamPosition < p.nextPos

/-- Publish preserves the publisher invariant. -/
theorem publish_preserves_ordered (p : PublisherState) (u : String)
    (recs : List KeyChange) (h : streamOrdered p) :
    streamOrdered (publish p u recs) := by
  obtain ⟨hpw, hlt⟩ := h
  constructor
  · refine List.pairwise_append.mpr ⟨hpw, assignPositions_pairwise u recs p.nextPos, ?_⟩
    intro a ha b hb
    have h1 := hlt a ha
    have h2 := (assignPositions_bounds u recs p.nextPos b hb).1
    omega
  · intro r hr
    rcases List.mem_append.mp hr with h | h
    · have := hlt r h
      simp only [publish]
      omega
    · have := (assignPositions_bounds u recs p.nextPos r h).2
      simp only [publish]
      omega

/-- Running any sequence of Publish calls preserves the invariant. -/
theorem runPublishes_preserves_ordered (bs : List (String × List KeyChange)) :
    ∀ p, streamOrdered p → streamOrdered (runPublishes p bs) := by
  induction bs with
  | nil => intro p h; exact h
  | cons b rest ih =>
    intro p h
    obtain ⟨u, recs⟩ := b
    exact ih _ (publish_preserves_ordered p u recs h)

/-- C7: across every sequence of Publish calls from the initial publisher,
the ChangeStreamPosition values in the durable stream are strictly
increasing globally: every later-appended record has a strictly greater
position than every earlier one, across all users. -/
theorem publish_positions_strictly_increasing (bs : List (String × List KeyChange)) :
    List.Pairwise (fun a b => a.changeStreamPosition < b.changeStreamPosition)
      (runPublishes initialPublisher bs).stream := by
  have h := runPublishes_preserves_ordered bs initialPublisher
    ⟨List.Pairwise.nil, by intro r hr; cases hr⟩
  exact h.1

/-- Enqueue is idempotent: a second signal for the same user changes
nothing. -/
theorem enqueue_idem (u : String) (q : QueueState) :
    enqueue u (enqueue u q) = enqueue u q := by
  by_cases h1 : u ∈ q.queued
  · simp [enqueue, h1]
  · by_cases h2 : u ∈ q.running
    · by_cases h3 : u ∈ q.pending
      · simp [enqueue, h1, h2, h3]
      · simp [enqueue, h1, h2, h3, List.mem_append]
    · simp [enqueue, h1, h2, List.mem_append]

/-- Iterating Enqueue at least once equals a single Enqueue. -/
theorem enqueue_iterate (u : String) (q : QueueState) (n : Nat) (h : 1 ≤ n) :
    (enqueue u)^[n] q = enqueue u q := by
  induction n with
  | zero => omega
  | succ m ih =>
    cases m with
    | zero => simp
    | succ k =>
      rw [Function.iterate_succ_apply', ih (by omega), enqueue_idem]

/-- C5: any number N ≥ 1 of staleness signals for one user collapses to a
single Enqueue; while the user's task is queued the signals change nothing,
and while it is in flight they leave exactly one outstanding follow-up task,
which completion turns into exactly one queued task. -/
theorem enqueue_coalesces (q : QueueState) (u : String) (n : Nat) (hn : 1 ≤ n) :
    (enqueue u)^[n] q = enqueue u q
    ∧ (u ∈ q.queued → (enqueue u)^[n] q = q)
    ∧ (u ∈ q.running → u ∉ q.queued → u ∉ q.pending →
        outstandingTasks u ((enqueue u)^[n] q) = 1
        ∧ ((complete u ((enqueue u)^[n] q)).queued.count u = 1)) := by
  have hit := enqueue_iterate u q n hn
  refine ⟨hit, ?_, ?_⟩
  · intro hq
    rw [hit]
    simp [enqueue, hq]
  · intro hr hq hp
    rw [hit]
    have he : enqueue u q = { q with pending := q.pending ++ [u] } := by
      simp [enqueue, hq, hr, hp]
    rw [he]
    have hcq : q.queued.count u = 0 := List.count_eq_zero.mpr hq
    have hcp : q.pending.count u = 0 := List.count_eq_zero.mpr hp
    constructor
    · simp [outstandingTasks, List.count_append, hcq, hcp]
    · have hmem : u ∈ q.pending ++ [u] := by simp
      simp [complete, hmem, List.count_append, hcq]

/-- Witness for C5: three signals for a user in flight leave exactly one
outstanding follow-up, which completion turns into one queued task. -/
theorem enqueue_coalesces_witness :
    outstandingTasks "u1" ((enqueue "u1")^[3] ⟨[], ["u1"], []⟩) = 1
    ∧ ((complete "u1" ((enqueue "u1")^[3] ⟨[], ["u1"], []⟩)).queued.count "u1" = 1) :=
  (enqueue_coalesces ⟨[], ["u1"], []⟩ "u1" 3 (by omega)).2.2
    (by simp) (by simp) (by simp)

/-- Under unique DeviceIDs, looking up a member device by its DeviceID finds
that device. -/
theorem findDevice_mem_nodup (l : List DeviceKeys) (d : DeviceKeys)
    (hd : d ∈ l) (hn : (l.map (fun x => x.deviceID)).Nodup) :
    findDevice l d.deviceID = some d := by
  induction l with
  | nil => cases hd
  | cons a t ih =>
    rcases List.mem_cons.mp hd with h | h
    · subst h
      simp [findDevice]
    · have hn2 := hn
      rw [List.map_cons, List.nodup_cons] at hn2
      obtain ⟨hna, ht⟩ := hn2
      have hne : ¬ (a.deviceID == d.deviceID) = true := by
        intro hbeq
        apply hna
        rw [eq_of_beq hbeq]
        exact List.mem_map_of_mem _ h
      rw [findDevice, List.find?_cons_of_neg]
      · simpa [findDevice] using ih h ht
      · simpa using hne

/-- The diff of a device list against itself is empty when DeviceIDs are
unique. -/
theorem diff_self (l : List DeviceKeys)
    (hn : (l.map (fun x => x.deviceID)).Nodup) :
    diffDeviceLists l l = [] := by
  have h1 : l.filter (fun d => !(hasDevice l d.deviceID)) = [] := by
    apply List.filter_eq_nil_iff.mpr
    intro d hd
    simp only [hasDevice, Bool.not_eq_true', Bool.not_eq_false]
    exact List.any_eq_true.mpr ⟨d, hd, by simp⟩
  have h2 : l.filter (fun d =>
      match findDevice l d.deviceID with
      | some r => keysChanged d r
      | none => false) = [] := by
    apply List.filter_eq_nil_iff.mpr
    intro d hd
    rw [findDevice_mem_nodup l d hd hn]
    simp [keysChanged]
  simp [diffDeviceLists, removedIDs, updatedIDs, addedIDs, h1, h2, List.insertionSort]

/-- C4: when the fetched remote device list equals the stored one the diff is
empty, the resync publishes nothing, leaves Devices and StreamID unchanged,
only clears IsStale and moves the timestamp — and running it again with the
same remote list again publishes nothing and changes no device data. -/
theorem resync_no_change_idempotent (s : DeviceListState) (now now2 : Nat)
    (remote : List DeviceKeys)
    (hn : (s.devices.map (fun x => x.deviceID)).Nodup)
    (heq : remote = s.devices) :
    diffDeviceLists s.devices remote = []
    ∧ (resyncUser s now (FetchResult.ok remote)).published = []
    ∧ (resyncUser s now (FetchResult.ok remote)).state.devices = s.devices
    ∧ (resyncUser s now (FetchResult.ok remote)).state.streamID = s.streamID
    ∧ (resyncUser s now (FetchResult.ok remote)).state.isStale = false
    ∧ (resyncUser s now (FetchResult.ok remote)).state.updatedAt = now
    ∧ (resyncUser (resyncUser s now (FetchResult.ok remote)).state now2
        (FetchResult.ok remote)).published = []
    ∧ (resyncUser (resyncUser s now (FetchResult.ok remote)).state now2
        (FetchResult.ok remote)).state.devices = s.devices
    ∧ (resyncUser (resyncUser s now (FetchResult.ok remote)).state now2
        (FetchResult.ok remote)).state.streamID = s.streamID := by
  subst heq
  have hd := diff_self s.devices hn
  refine ⟨hd, ?_⟩
  simp [resyncUser, hd]

/-- Witness for C4 at a concrete state whose remote list matches the stored
one. -/
theorem resync_no_change_idempotent_witness :
    diffDeviceLists exampleState.devices [devA] = []
    ∧ (resyncUser exampleState 200 (FetchResult.ok [devA])).published = []
    ∧ (resyncUser exampleState 200 (FetchResult.ok [devA])).state.devices
        = exampleState.devices
    ∧ (resyncUser exampleState 200 (FetchResult.ok [devA])).state.streamID
        = exampleState.streamID := by
  have h := resync_no_change_idempotent exampleState 200 201 [devA]
    (by simp [exampleState, devA]) (by simp [exampleState])
  exact ⟨h.1, h.2.1, h.2.2.1, h.2.2.2.1⟩

/-- Membership in the removed group: stored but not remote. -/
theorem mem_removedIDs (stored remote : List DeviceKeys) (id : String) :
    id ∈ removedIDs stored remote
      ↔ hasDevice stored id = true ∧ hasDevice remote id = false := by
  unfold removedIDs
  rw [List.mem_insertionSort]
  simp only [List.mem_map, List.mem_filter, hasDevice, List.any_eq_true, beq_iff_eq,
    Bool.not_eq_true']
  constructor
  · rintro ⟨d, ⟨hd, hp⟩, rfl⟩
    exact ⟨⟨d, hd, rfl⟩, hp⟩
  · rintro ⟨⟨d, hd, rfl⟩, hnr⟩
    exact ⟨d, ⟨hd, hnr⟩, rfl⟩

/-- Membership in the added group: remote but not stored. -/
theorem mem_addedIDs (stored remote : List DeviceKeys) (id : String) :
    id ∈ addedIDs stored remote
      ↔ hasDevice remote id = true ∧ hasDevice stored id = false := by
  unfold addedIDs
  rw [List.mem_insertionSort]
  simp only [List.mem_map, List.mem_filter, hasDevice, List.any_eq_true, beq_iff_eq,
    Bool.not_eq_true']
  constructor
  · rintro ⟨d, ⟨hd, hp⟩, rfl⟩
    exact ⟨⟨d, hd, rfl⟩, hp⟩
  · rintro ⟨⟨d, hd, rfl⟩, hnr⟩
    exact ⟨d, ⟨hd, hnr⟩, rfl⟩

/-- Membership in the updated group: present on both sides with changed key
material (under unique stored DeviceIDs). -/
theorem mem_updatedIDs (stored remote : List DeviceKeys) (id : String)
    (hns : (stored.map (fun x => x.deviceID)).Nodup) :
    id ∈ updatedIDs stored remote
      ↔ ∃ dl dr, findDevice stored id = some dl ∧ findDevice remote id = some dr
          ∧ keysChanged dl dr = true := by
  unfold updatedIDs
  rw [List.mem_insertionSort]
  simp only [List.mem_map, List.mem_filter]
  constructor
  · rintro ⟨d, ⟨hd, hp⟩, rfl⟩
    cases hr : findDevice remote d.deviceID with
    | none => rw [hr] at hp; cases hp
    | some r =>
      rw [hr] at hp
      exact ⟨d, r, findDevice_mem_nodup stored d hd hns, rfl, hp⟩
  · rintro ⟨dl, dr, h1, h2, h3⟩
    have hmem : dl ∈ stored := List.mem_of_find?_eq_some h1
    have hid : dl.deviceID = id := by
      have := List.find?_some h1
      simpa using this
    refine ⟨dl, ⟨hmem, ?_⟩, hid⟩
    rw [hid, h2]
    exact h3

/-- A successful lookup means the device list contains that DeviceID. -/
theorem findDevice_some_hasDevice (l : List DeviceKeys) (id : String)
    (d : DeviceKeys) (h : findDevice l id = some d) : hasDevice l id = true := by
  unfold findDevice at h
  have hmem : d ∈ l := List.mem_of_find?_eq_some h
  have hp := List.find?_some h
  unfold hasDevice
  exact List.any_eq_true.mpr ⟨d, hmem, hp⟩

/-- DeviceIDs extracted from a filtered device list stay unique. -/
theorem nodup_filter_map (p : DeviceKeys → Bool) (l : List DeviceKeys)
    (hn : (l.map (fun x => x.deviceID)).Nodup) :
    ((l.filter p).map (fun x => x.deviceID)).Nodup :=
  hn.sublist ((List.filter_sublist l).map _)

/-- Reading the DeviceIDs back off a tagged group recovers the id list. -/
theorem map_deviceID_of_mk (t : ChangeType) (ids : List String) :
    ((ids.map (fun id => (⟨id, t⟩ : KeyChange))).map (fun c => c.deviceID)) = ids := by
  induction ids with
  | nil => rfl
  | cons a l ih => simp only [List.map_cons]; rw [ih]

/-- C2: with unique DeviceIDs on both sides, the diff mentions each DeviceID
at most once (so a key change is one updated record, never removed plus
added), and classifies exactly: added iff remote-only, removed iff
stored-only, updated iff present on both sides with changed key material. -/
theorem diff_classification (stored remote : List DeviceKeys)
    (hns : (stored.map (fun x => x.deviceID)).Nodup)
    (hnr : (remote.map (fun x => x.deviceID)).Nodup) :
    ((diffDeviceLists stored remote).map (fun c => c.deviceID)).Nodup
    ∧ ∀ id,
      ((⟨id, ChangeType.added⟩ : KeyChange) ∈ diffDeviceLists stored remote
        ↔ hasDevice remote id = true ∧ hasDevice stored id = false)
      ∧ ((⟨id, ChangeType.removed⟩ : KeyChange) ∈ diffDeviceLists stored remote
        ↔ hasDevice stored id = true ∧ hasDevice remote id = false)
      ∧ ((⟨id, ChangeType.updated⟩ : KeyChange) ∈ diffDeviceLists stored remote
        ↔ ∃ dl dr, findDevice stored id = some dl ∧ findDevice remote id = some dr
            ∧ keysChanged dl dr = true) := by
  have hnodup_r : (removedIDs stored remote).Nodup := by
    unfold removedIDs
    exact ((List.perm_insertionSort _ _).nodup_iff).mpr (nodup_filter_map _ stored hns)
  have hnodup_u : (updatedIDs stored remote).Nodup := by
    unfold updatedIDs
    exact ((List.perm_insertionSort _ _).nodup_iff).mpr (nodup_filter_map _ stored hns)
  have hnodup_a : (addedIDs stored remote).Nodup := by
    unfold addedIDs
    exact ((List.perm_insertionSort _ _).nodup_iff).mpr (nodup_filter_map _ remote hnr)
  have hdis_ru : List.Disjoint (removedIDs stored remote) (updatedIDs stored remote) := by
    intro id h1 h2
    rw [mem_removedIDs] at h1
    rw [mem_updatedIDs stored remote id hns] at h2
    obtain ⟨dl, dr, _, hr, _⟩ := h2
    have := findDevice_some_hasDevice remote id dr hr
    rw [h1.2] at this
    cases this
  have hdis_ra : List.Disjoint (removedIDs stored remote) (addedIDs stored remote) := by
    intro id h1 h2
    rw [mem_removedIDs] at h1
    rw [mem_addedIDs] at h2
    rw [h1.1] at h2
    cases h2.2
  have hdis_ua : List.Disjoint (updatedIDs stored remote) (addedIDs stored remote) := by
    intro id h1 h2
    rw [mem_updatedIDs stored remote id hns] at h1
    rw [mem_addedIDs] at h2
    obtain ⟨dl, dr, hl, _, _⟩ := h1
    have := findDevice_some_hasDevice stored id dl hl
    rw [h2.2] at this
    cases this
  constructor
  · have hshape : (diffDeviceLists stored remote).map (fun c => c.deviceID)
        = removedIDs stored remote ++ (updatedIDs stored remote ++ addedIDs stored remote) := by
      simp only [diffDeviceLists, List.map_append, map_deviceID_of_mk, List.append_assoc]
    rw [hshape]
    rw [List.nodup_append]
    refine ⟨hnodup_r, ?_, ?_⟩
    · rw [List.nodup_append]
      exact ⟨hnodup_u, hnodup_a, hdis_ua⟩
    · intro id h1 h2
      rcases List.mem_append.mp h2 with h | h
      · exact hdis_ru h1 h
      · exact hdis_ra h1 h
  · intro id
    refine ⟨?_, ?_, ?_⟩
    · rw [← mem_addedIDs stored remote id]
      simp [diffDeviceLists, List.mem_append, List.mem_map]
    · rw [← mem_removedIDs stored remote id]
      simp [diffDeviceLists, List.mem_append, List.mem_map]
    · rw [← mem_updatedIDs stored remote id hns]
      simp [diffDeviceLists, List.mem_append, List.mem_map]

/-- Witness for C2 at the concrete lists stored = {B, C}, remote = {A, B
rotated}. -/
theorem diff_classification_witness :
    ((diffDeviceLists [devB, devC] [devA, devB2]).map (fun c => c.deviceID)).Nodup
    ∧ ((⟨"A", ChangeType.added⟩ : KeyChange) ∈ diffDeviceLists [devB, devC] [devA, devB2]
        ↔ hasDevice [devA, devB2] "A" = true ∧ hasDevice [devB, devC] "A" = false) := by
  have h := diff_classification [devB, devC] [devA, devB2]
    (by simp [devB, devC]) (by simp [devA, devB2])
  exact ⟨h.1, (h.2 "A").1⟩

/-- Each of the three diff groups is sorted by DeviceID. -/
theorem diff_groups_sorted (stored remote : List DeviceKeys) :
    List.Sorted (· ≤ ·) (removedIDs stored remote)
    ∧ List.Sorted (· ≤ ·) (updatedIDs stored remote)
    ∧ List.Sorted (· ≤ ·) (addedIDs stored remote) :=
  ⟨List.sorted_insertionSort _ _, List.sorted_insertionSort _ _,
    List.sorted_insertionSort _ _⟩

/-- C3: every diff decomposes as removals, then updates, then additions, each
group ordered by DeviceID; and for remote state {A, B-rotated} against local
state {B, C} the published order is removed C, updated B, added A. -/
theorem diff_deterministic_order :
    (∀ stored remote : List DeviceKeys,
      ∃ rems upds adds,
        diffDeviceLists stored remote = rems ++ upds ++ adds
        ∧ (∀ c ∈ rems, c.changeType = ChangeType.removed)
        ∧ (∀ c ∈ upds, c.changeType = ChangeType.updated)
        ∧ (∀ c ∈ adds, c.changeType = ChangeType.added)
        ∧ List.Sorted (· ≤ ·) (rems.map (fun c => c.deviceID))
        ∧ List.Sorted (· ≤ ·) (upds.map (fun c => c.deviceID))
        ∧ List.Sorted (· ≤ ·) (adds.map (fun c => c.deviceID)))
    ∧ diffDeviceLists [devB, devC] [devA, devB2]
        = [⟨"C", ChangeType.removed⟩, ⟨"B", ChangeType.updated⟩,
            ⟨"A", ChangeType.added⟩] := by
  constructor
  · intro stored remote
    refine ⟨(removedIDs stored remote).map (fun id => ⟨id, ChangeType.removed⟩),
      (updatedIDs stored remote).map (fun id => ⟨id, ChangeType.updated⟩),
      (addedIDs stored remote).map (fun id => ⟨id, ChangeType.added⟩),
      rfl, ?_, ?_, ?_, ?_, ?_, ?_⟩
    · intro c hc
      obtain ⟨id, _, rfl⟩ := List.mem_map.mp hc
      rfl
    · intro c hc
      obtain ⟨id, _, rfl⟩ := List.mem_map.mp hc
      rfl
    · intro c hc
      obtain ⟨id, _, rfl⟩ := List.mem_map.mp hc
      rfl
    · rw [map_deviceID_of_mk]
      exact (diff_groups_sorted stored remote).1
    · rw [map_deviceID_of_mk]
      exact (diff_groups_sorted stored remote).2.1
    · rw [map_deviceID_of_mk]
      exact (diff_groups_sorted stored remote).2.2
  · decide

/-- Witness for C1 at a concrete starting state and fetch sequence. -/
theorem streamID_strictly_increasing_witness :
    List.Chain' (· < ·)
      (exampleState.streamID
        :: committedStreamIDs exampleState
            [(200, FetchResult.ok [devA, devB]), (201, FetchResult.transient),
              (202, FetchResult.permanent)])
    ∧ List.Chain' (· ≤ ·)
      (exampleState.streamID
        :: allStreamIDs exampleState
            [(200, FetchResult.ok [devA, devB]), (201, FetchResult.transient),
              (202, FetchResult.permanent)]) :=
  streamID_strictly_increasing exampleState
    [(200, FetchResult.ok [devA, devB]), (201, FetchResult.transient),
      (202, FetchResult.permanent)]

/-- Witness for C3 at the concrete lists stored = {B, C}, remote = {A, B
rotated}. -/
theorem diff_deterministic_order_witness :
    ∃ rems upds adds,
      diffDeviceLists [devB, devC] [devA, devB2] = rems ++ upds ++ adds
      ∧ (∀ c ∈ rems, c.changeType = ChangeType.removed)
      ∧ (∀ c ∈ upds, c.changeType = ChangeType.updated)
      ∧ (∀ c ∈ adds, c.changeType = ChangeType.added)
      ∧ List.Sorted (· ≤ ·) (rems.map (fun c => c.deviceID))
      ∧ List.Sorted (· ≤ ·) (upds.map (fun c => c.deviceID))
      ∧ List.Sorted (· ≤ ·) (adds.map (fun c => c.deviceID)) :=
  diff_deterministic_order.1 [devB, devC] [devA, devB2]

/-- Witness for C6 at a concrete state. -/
theorem resync_permanent_resolves_witness :
    (resyncUser exampleState 200 FetchResult.permanent).state.devices = []
    ∧ (resyncUser exampleState 200 FetchResult.permanent).state.isStale = false
    ∧ (resyncUser exampleState 200 FetchResult.permanent).reenqueue = false :=
  resync_permanent_resolves exampleState 200

/-- Witness for C7 at a concrete batch sequence for two users. -/
theorem publish_positions_strictly_increasing_witness :
    List.Pairwise (fun a b => a.changeStreamPosition < b.changeStreamPosition)
      (runPublishes initialPublisher
        [("@bob:remote.org", [⟨"C", ChangeType.removed⟩, ⟨"A", ChangeType.added⟩]),
          ("@eve:other.org", [⟨"X", ChangeType.updated⟩])]).stream :=
  publish_positions_strictly_increasing
    [("@bob:remote.org", [⟨"C", ChangeType.removed⟩, ⟨"A", ChangeType.added⟩]),
      ("@eve:other.org", [⟨"X", ChangeType.updated⟩])]

end Dendrite
